import Mathlib

/-!
Shallow embedding of the hapi request-handling library (src/handler.go).

Modelling conventions:

* Go `url.Values` (a map from string to `[]string`) is modelled as an
  association list with unique keys (`Values`); Go map iteration is modelled
  as iteration over the association list.  Every input used in the theorems
  below has pairwise distinct effective keys, so Go's unspecified map
  iteration order is immaterial.
* Go's nil map is modelled by `Option`: the `opts` field of `Handler` is
  `Option Opts`, with `none` standing for the nil map a freshly constructed
  `Handler` carries (`NewHandler` never runs `make` for `opts`).  Reading a
  missing key of a nil map yields the zero value, as in Go; writing to a nil
  map is the run-time panic `GoPanic.nilMapWrite`.
* Run-time panics are modelled with `Except GoPanic`; fallible library calls
  return `Except String` (Go's `error` values are modelled by their message
  strings, built exactly as the `fmt.Errorf` calls in the source build them).
* Strings are treated as their character lists; the source only slices
  strings at ASCII boundaries in every scenario a claim mentions, so byte
  indexing and character indexing agree.  String helpers are implemented by
  structural recursion over `String.data` so that concrete inputs evaluate
  inside the kernel.
* The spec declares the body-decoding primitives (JSON / form / multipart
  parsing) out of scope, "treated as a given body parser"; a `Request`
  therefore carries the *outcome* of those parsers (`bodyJson`, `bodyForm`,
  `multipartErr`).  What `encoding/json` decoding into
  `map[string]interface\x7b\x7d` can produce is modelled faithfully by
  `decodeVal`: arrays decode to `GoVal.ifaceList`, never to `GoVal.strList`.
* `float64` values are only ever parsed and stored by the source, never
  computed with, so they are modelled by exact rationals (`Rat`); rounding is
  unobservable in every claim.  Likewise `fmt`'s `%v` rendering of numbers
  and maps (`goFmt`) is approximate in branches no claim exercises.
* Go `int`/`int64` are modelled as `Int` with the 64-bit range check of
  `strconv.Atoi` made explicit.
-/

/-- strconv.ParseBool: the exact literal set accepted by Go. -/
def goParseBool (s : String) : Option Bool :=
  if s = "1" ∨ s = "t" ∨ s = "T" ∨ s = "true" ∨ s = "TRUE" ∨ s = "True" then some true
  else if s = "0" ∨ s = "f" ∨ s = "F" ∨ s = "false" ∨ s = "FALSE" ∨ s = "False" then some false
  else none

/-- Digit run to a natural number (base 10). -/
def digitsVal (l : List Char) : Nat :=
  l.foldl (fun a c => 10 * a + (c.toNat - 48)) 0

/-- strconv.Atoi: optional sign, a non-empty digit run, 64-bit range check. -/
def goAtoi (s : String) : Option Int :=
  let core : Bool → List Char → Option Int := fun neg ds =>
    if ds = [] ∨ ¬ ds.all Char.isDigit then none
    else
      let n := digitsVal ds
      if neg then
        if n ≤ 2 ^ 63 then some (-(n : Int)) else none
      else
        if n ≤ 2 ^ 63 - 1 then some (n : Int) else none
  match s.data with
  | '-' :: ds => core true ds
  | '+' :: ds => core false ds
  | ds => core false ds

/-- Splits a character list at the first character satisfying the test;
the second component is `none` when the separator does not occur
(`strings.Cut`). -/
def cutAt (p : Char → Bool) : List Char → List Char × Option (List Char)
  | [] => ([], none)
  | c :: r =>
    if p c then ([], some r)
    else
      let (a, b) := cutAt p r
      (c :: a, b)

/-- strconv.ParseFloat, decimal forms: optional sign, digits with an optional
fraction (at least one digit overall), optional decimal exponent.  The value
is kept as an exact rational; hexadecimal floats, underscores and the
Inf/NaN spellings are omitted (no claim depends on them, only on the
function being a deterministic parser). -/
def goParseFloat (s : String) : Option Rat :=
  let (neg, l) :=
    match s.data with
    | '-' :: r => (true, r)
    | '+' :: r => (false, r)
    | r => (false, r)
  let (mant, expPart) := cutAt (fun c => c = 'e' ∨ c = 'E') l
  let (ip, fpOpt) := cutAt (fun c => c = '.') mant
  let fp := fpOpt.getD []
  if ip.all Char.isDigit ∧ fp.all Char.isDigit ∧ (ip ≠ [] ∨ fp ≠ []) then
    let e : Option Int :=
      match expPart with
      | none => some 0
      | some ed =>
        match ed with
        | '-' :: ds => if ds ≠ [] ∧ ds.all Char.isDigit then some (-(digitsVal ds : Int)) else none
        | '+' :: ds => if ds ≠ [] ∧ ds.all Char.isDigit then some (digitsVal ds : Int) else none
        | ds => if ds ≠ [] ∧ ds.all Char.isDigit then some (digitsVal ds : Int) else none
    match e with
    | none => none
    | some e =>
      let q : Rat := (digitsVal (ip ++ fp) : Rat) * (10 : Rat) ^ (e - (fp.length : Int))
      some (if neg then -q else q)
  else none

/-- fmt's `%q` on the identifiers and literals the error messages quote:
wrap in double quotes, escaping backslash and quote (control-character
escapes are omitted; every quoted string in the claims is plain ASCII). -/
def goQuote (s : String) : String :=
  "\"" ++ String.mk (s.data.foldr
    (fun c acc => if c = '"' ∨ c = '\\' then '\\' :: c :: acc else c :: acc) []) ++ "\""

/-- ASCII lower-casing of one character (strings.ToLower; the source only
compares the result against ASCII keywords, where Go's Unicode case mapping
agrees with this). -/
def charLower (c : Char) : Char :=
  if 65 ≤ c.toNat ∧ c.toNat ≤ 90 then Char.ofNat (c.toNat + 32) else c

/-- strings.ToLower. -/
def goToLower (s : String) : String :=
  String.mk (s.data.map charLower)

/-- Drop the first `n` characters (Go `s[n:]` on ASCII data). -/
def goDrop (s : String) (n : Nat) : String :=
  String.mk (s.data.drop n)

/-- strings.Split with a one-character separator (the source only splits on
"/" and "&"). -/
def splitOnChar (sep : Char) : List Char → List (List Char)
  | [] => [[]]
  | c :: rest =>
    let r := splitOnChar sep rest
    if c = sep then [] :: r
    else
      match r with
      | [] => [[c]]
      | a :: as => (c :: a) :: as

/-- path.Base: strip trailing slashes, then keep everything after the last
slash; empty input gives ".", all-slash input gives "/". -/
def pathBase (s : String) : String :=
  if s = "" then "."
  else
    let t := (s.data.reverse.dropWhile (fun c => c = '/')).reverse
    let last := (t.reverse.takeWhile (fun c => c ≠ '/')).reverse
    if last = [] then "/" else String.mk last

/-- Go url.Values: a string-keyed map to value lists, as an association list
with unique keys. -/
abbrev Values := List (String × List String)

/-- Map lookup; a missing key yields the zero value `[]`, as in Go. -/
def valuesGet : Values → String → List String
  | [], _ => []
  | (k', v) :: rest, k => if k' = k then v else valuesGet rest k

/-- url.Values.Has: whether the key is present at all. -/
def valuesHas : Values → String → Bool
  | [], _ => false
  | (k', _) :: rest, k => if k' = k then true else valuesHas rest k

/-- Map assignment `m[k] = v` (replace or insert). -/
def valuesSet : Values → String → List String → Values
  | [], k, v => [(k, v)]
  | (k', v') :: rest, k, v =>
    if k' = k then (k, v) :: rest else (k', v') :: valuesSet rest k v

/-- Appending assignment `m[k] = append(m[k], v...)`, the accumulation both url.ParseQuery and
net/http's copyValues use. -/
def valuesAdd : Values → String → List String → Values
  | [], k, v => [(k, v)]
  | (k', v') :: rest, k, v =>
    if k' = k then (k', v' ++ v) :: rest else (k', v') :: valuesAdd rest k v

/-- net/http copyValues: append every entry of `src` into `dst`. -/
def copyValues (dst src : Values) : Values :=
  src.foldl (fun d kv => valuesAdd d kv.1 kv.2) dst

/-- url.QueryUnescape restricted to the inputs the claims exercise: '+'
becomes a space; percent-decoding is omitted (no claim input contains '%',
and url.ParseQuery skips a pair whose unescaping fails, which therefore
never happens here). -/
def unescapeLite (s : String) : String :=
  String.mk (s.data.map (fun c => if c = '+' then ' ' else c))

/-- url.ParseQuery: cut on '&', skip empty components and components
containing ';', split each component at the first '=', accumulate values
per key in encounter order. -/
def parseQuery (s : String) : Values :=
  (splitOnChar '&' s.data).foldl
    (fun m comp =>
      if comp = [] ∨ comp.any (fun c => c = ';') then m
      else
        let (k, v) := cutAt (fun c => c = '=') comp
        valuesAdd m (unescapeLite (String.mk k)) [unescapeLite (String.mk (v.getD []))])
    []

/- JSON document values, as handed to the type switch after decoding.
Lists and objects are specialised mutual inductives so that the decoding
and rendering functions below are structurally recursive (and hence
evaluate inside the kernel). -/
mutual

inductive JVal where
  | str (s : String)
  | num (q : Rat)
  | bool (b : Bool)
  | null
  | arr (xs : JList)
  | obj (kvs : JObj)

inductive JList where
  | nil
  | cons (j : JVal) (rest : JList)

inductive JObj where
  | nil
  | cons (k : String) (j : JVal) (rest : JObj)

end

/- What a Go `interface\x7b\x7d` can hold at the type switch in `args`:
the values `encoding/json` decoding can produce, plus `[]string`, which the
switch tests for even though the decoder never produces it. -/
mutual

inductive GoVal where
  | str (s : String)
  | strList (v : List String)
  | ifaceList (xs : GoList)
  | num (q : Rat)
  | bool (b : Bool)
  | null
  | dict (kvs : GoObj)

inductive GoList where
  | nil
  | cons (v : GoVal) (rest : GoList)

inductive GoObj where
  | nil
  | cons (k : String) (v : GoVal) (rest : GoObj)

end

/- encoding/json decoding into `map[string]interface\x7b\x7d`: strings,
numbers (as float64) and booleans decode to themselves, null to nil, arrays
to `[]interface\x7b\x7d` (never to `[]string`), objects to nested maps. -/
mutual

def decodeVal : JVal → GoVal
  | .str s => .str s
  | .num q => .num q
  | .bool b => .bool b
  | .null => .null
  | .arr xs => .ifaceList (decodeList xs)
  | .obj kvs => .dict (decodeObj kvs)

def decodeList : JList → GoList
  | .nil => .nil
  | .cons j rest => .cons (decodeVal j) (decodeList rest)

def decodeObj : JObj → GoObj
  | .nil => .nil
  | .cons k j rest => .cons k (decodeVal j) (decodeObj rest)

end

/-- Whether a decoded value is a Go `[]string` (the type the dead branch of
the switch in `args` tests for). -/
def isStrList : GoVal → Bool
  | .strList _ => true
  | _ => false

/-- Space-joined rendering of a string list, as fmt's `%v` prints slice
elements. -/
def joinSpace : List String → String
  | [] => ""
  | [s] => s
  | s :: rest => s ++ " " ++ joinSpace rest

/- fmt.Sprintf's `%v` on a decoded value: strings print verbatim, booleans
as true/false, nil as `<nil>`, slices bracketed with space-separated
elements.  Numbers and nested maps are rendered approximately (no claim
depends on their exact spelling, only on slices of strings). -/
mutual

def goFmt : GoVal → String
  | .str s => s
  | .strList v => "[" ++ joinSpace v ++ "]"
  | .ifaceList xs => "[" ++ goFmtList xs ++ "]"
  | .num q => toString q
  | .bool true => "true"
  | .bool false => "false"
  | .null => "<nil>"
  | .dict kvs => "map[" ++ goFmtObj kvs ++ "]"

def goFmtList : GoList → String
  | .nil => ""
  | .cons v .nil => goFmt v
  | .cons v rest => goFmt v ++ " " ++ goFmtList rest

def goFmtObj : GoObj → String
  | .nil => ""
  | .cons k v .nil => k ++ ":" ++ goFmt v
  | .cons k v rest => k ++ ":" ++ goFmt v ++ " " ++ goFmtObj rest

end

/-- Iterate a Go `for k, v := range kv` over the decoded JSON object,
performing the type switch of `args` (handler.go lines 67-76): a string
stores a single value, a `[]string` stores the list itself, anything else
stores its `%v` rendering as a single value. -/
def jsonFields (kvs : JObj) (vs : Values) : Values :=
  match kvs with
  | .nil => vs
  | .cons k j rest =>
    let gv := decodeVal j
    let vs :=
      match gv with
      | .str s => valuesSet vs k [s]
      | .strList v => valuesSet vs k v
      | gv => valuesSet vs k [goFmt gv]
    jsonFields rest vs

/-- The typed default compiled at registration (`defval interface\x7b\x7d`
holding string / int64 / float64 / bool). -/
inductive TypedVal where
  | s (v : String)
  | i (v : Int)
  | f (v : Rat)
  | b (v : Bool)
deriving DecidableEq, Repr

/-- One parameter descriptor (the `Param` struct).  `type` is lower-case
because `Type` is reserved in Lean; `defval` is the compiled typed default,
`none` standing for the nil interface value it holds before registration. -/
structure Param where
  Name : String
  type : String
  Default : String := ""
  Required : Bool := false
  Memo : String := ""
  defval : Option TypedVal := none
deriving DecidableEq, Repr

/-- One homogeneous resolved value list (`[]string` / `[]int64` /
`[]float64` / `[]bool` behind `interface\x7b\x7d`). -/
inductive TypedList where
  | strs (v : List String)
  | ints (v : List Int)
  | floats (v : List Rat)
  | bools (v : List Bool)
deriving DecidableEq, Repr

/-- The resolved-parameter map `opts map[string]interface\x7b\x7d`. -/
abbrev Opts := List (String × TypedList)

/-- The outcome of the (out-of-scope, per the spec) body parsers for one
request, carried alongside the raw request data: `bodyJson` is what
`json.NewDecoder(r.Body).Decode(&kv)` would produce, `bodyForm` what
`r.ParseForm` would leave in `r.PostForm`, and `multipartErr` whether
`r.ParseMultipartForm` would fail. -/
structure Request where
  method : String
  path : String
  rawQuery : String := ""
  cookies : List (String × String) := []
  contentType : String := ""
  bodyJson : Except String JObj := .ok .nil
  bodyForm : Except String Values := .ok []
  multipartErr : Option String := none

/-- The run-time panics the source can raise. -/
inductive GoPanic where
  | nilMapWrite
  | sliceBounds
  | typeAssert
  | errValue (msg : String)
deriving DecidableEq, Repr

/-- The Handler struct.  The bound dispatch function is carried separately
(see `Proc` and `serveHTTP`): storing a `Handler → ...` function inside
`Handler` would be a non-positive occurrence in Lean, and no claim observes
the field beyond its nil-ness, which `serveHTTP`'s `Option Proc` argument
models. -/
structure Handler where
  spec : List Param
  opts : Option Opts := none
  args : List String := []
  req : Option Request := none
  err : Option String := none
  Route : String
  hdr : Values := []

/-- net/http's Request.Form for a POST/PUT/PATCH request: the parsed body
fields, with the URL query values appended per key (net/http `ParseForm`
copies `PostForm` and then appends `url.ParseQuery(r.URL.RawQuery)`). -/
def goForm (r : Request) (pf : Values) : Values :=
  copyValues pf (parseQuery r.rawQuery)

/-- The `args` function (handler.go lines 52-104): gather cookies, then the
body for state-changing methods (JSON / multipart / URL-encoded form, each
overwriting same-named entries), then the query string (overwriting), and
finally the path parsed as a query string, inserting each key (reduced to
its `path.Base`) only when no entry with that name exists yet.  The outer
`Except GoPanic` carries the `r.URL.Path[1:]` slice panic on an empty path;
the inner `Except String` is the function's Go error result. -/
def args (r : Request) : Except GoPanic (Except String Values) :=
  let vs : Values := r.cookies.foldl (fun m c => valuesSet m c.1 [c.2]) []
  let afterBody : Except String Values :=
    if r.method = "POST" ∨ r.method = "PUT" ∨ r.method = "PATCH" then
      if r.contentType = "application/json" then
        match r.bodyJson with
        | .error e => .error e
        | .ok kvs => .ok (jsonFields kvs vs)
      else if r.contentType = "multipart/form-data" then
        match r.multipartErr with
        | some e => .error e
        | none =>
          match r.bodyForm with
          | .error e => .error e
          | .ok pf => .ok ((goForm r pf).foldl (fun m kv => valuesSet m kv.1 kv.2) vs)
      else
        match r.bodyForm with
        | .error e => .error e
        | .ok pf => .ok ((goForm r pf).foldl (fun m kv => valuesSet m kv.1 kv.2) vs)
    else .ok vs
  match afterBody with
  | .error e => .ok (.error e)
  | .ok vs =>
    let vs := (parseQuery r.rawQuery).foldl (fun m kv => valuesSet m kv.1 kv.2) vs
    if r.path.data = [] then .error .sliceBounds
    else
      let pq := parseQuery (goDrop r.path 1)
      .ok (.ok (pq.foldl
        (fun m kv =>
          let k := pathBase kv.1
          if valuesHas m k then m else valuesSet m k kv.2) vs))

/-- The inner coercion loop of the `int` case: first failure aborts with the
error `fmt.Errorf("%q is not an integer (arg:%s)", s, p.Name)`. -/
def coerceInts (name : String) : List String → Except String (List Int)
  | [] => .ok []
  | s :: rest =>
    match goAtoi s with
    | none => .error (goQuote s ++ " is not an integer (arg:" ++ name ++ ")")
    | some i => (coerceInts name rest).map (fun l => i :: l)

/-- The inner coercion loop of the `float` case. -/
def coerceFloats (name : String) : List String → Except String (List Rat)
  | [] => .ok []
  | s :: rest =>
    match goParseFloat s with
    | none => .error (goQuote s ++ " is not a float (arg:" ++ name ++ ")")
    | some f => (coerceFloats name rest).map (fun l => f :: l)

/-- The inner coercion loop of the `bool` case: an empty string becomes
`true` without consulting `strconv.ParseBool`. -/
def coerceBools (name : String) : List String → Except String (List Bool)
  | [] => .ok []
  | s :: rest =>
    if s = "" then (coerceBools name rest).map (fun l => true :: l)
    else
      match goParseBool s with
      | none => .error (goQuote s ++ " is not a bool (arg:" ++ name ++ ")")
      | some b => (coerceBools name rest).map (fun l => b :: l)

/-- Map assignment on the opts map. -/
def optsSet : Opts → String → TypedList → Opts
  | [], k, v => [(k, v)]
  | (k', v') :: rest, k, v =>
    if k' = k then (k, v) :: rest else (k', v') :: optsSet rest k v

/-- Lookup in a (non-nil) opts map. -/
def optsFind : Opts → String → Option TypedList
  | [], _ => none
  | (k', v) :: rest, k => if k' = k then some v else optsFind rest k

/-- Reading `h.opts[name]`: reading a nil map yields the zero value. -/
def optsGet (o : Option Opts) (k : String) : Option TypedList :=
  match o with
  | none => none
  | some m => optsFind m k

/-- One iteration of the coercion switch of `parseArgs` (handler.go lines
122-174) for a declared parameter with gathered values `v`.  Results:
`.ok (.ok (some tl))` stores `tl`, `.ok (.ok none)` stores nothing (the
switch has no case for this type), `.ok (.error e)` is a recorded
resolution error, and `.error _` is a run-time panic (the `defval` type
assertions). -/
def coerceOne (p : Param) (v : List String) : Except GoPanic (Except String (Option TypedList)) :=
  match p.type with
  | "string" =>
    if v = [] then
      match p.defval with
      | some (.s d) => .ok (.ok (some (.strs [d])))
      | _ => .error .typeAssert
    else .ok (.ok (some (.strs v)))
  | "int" =>
    match coerceInts p.Name v with
    | .error e => .ok (.error e)
    | .ok is =>
      if is = [] then
        match p.defval with
        | some (.i d) => .ok (.ok (some (.ints [d])))
        | _ => .error .typeAssert
      else .ok (.ok (some (.ints is)))
  | "float" =>
    match coerceFloats p.Name v with
    | .error e => .ok (.error e)
    | .ok fs =>
      if fs = [] then
        match p.defval with
        | some (.f d) => .ok (.ok (some (.floats [d])))
        | _ => .error .typeAssert
      else .ok (.ok (some (.floats fs)))
  | "bool" =>
    match coerceBools p.Name v with
    | .error e => .ok (.error e)
    | .ok bs =>
      if bs = [] then
        match p.defval with
        | some (.b d) => .ok (.ok (some (.bools [d])))
        | _ => .error .typeAssert
      else .ok (.ok (some (.bools bs)))
  | _ => .ok (.ok none)

/-- The spec loop of `parseArgs` (handler.go lines 116-175): walk the
declared parameters in order; a required parameter with no gathered value
records `missing %q` and stops; a coercion failure records its error and
stops; otherwise the coerced list (or the wrapped default) is assigned into
the opts map — which panics, because the map is nil.  Returns the opts map
as mutated so far together with the recorded error, or the panic. -/
def coerceParams : List Param → Values → Option Opts → Except GoPanic (Option Opts × Option String)
  | [], _, o => .ok (o, none)
  | p :: rest, vs, o =>
    let v := valuesGet vs p.Name
    if v = [] ∧ p.Required then .ok (o, some ("missing " ++ goQuote p.Name))
    else
      match coerceOne p v with
      | .error pan => .error pan
      | .ok (.error e) => .ok (o, some e)
      | .ok (.ok none) => coerceParams rest vs o
      | .ok (.ok (some tl)) =>
        match o with
        | none => .error .nilMapWrite
        | some m => coerceParams rest vs (some (optsSet m p.Name tl))

/-- The method `parseArgs` (handler.go lines 106-176).  Note what it does *not* do:
`h.err` is never cleared (it is only ever assigned in error paths), and
`h.args` keeps its previous value when the new request's path suffix is
empty.  `h.Route` longer than the request path would be a slice panic. -/
def parseArgs (h : Handler) (r : Request) : Except GoPanic Handler :=
  if r.path.length < h.Route.length then .error .sliceBounds
  else
    let sfx := goDrop r.path h.Route.length
    let h1 := { h with req := some r }
    let h1 := if sfx ≠ "" then { h1 with args := (splitOnChar '/' sfx.data).map String.mk } else h1
    match args r with
    | .error pan => .error pan
    | .ok (.error e) => .ok { h1 with err := some e }
    | .ok (.ok vs) =>
      match coerceParams h.spec vs h1.opts with
      | .error pan => .error pan
      | .ok (o, none) => .ok { h1 with opts := o }
      | .ok (o, some e) => .ok { h1 with opts := o, err := some e }

/-- Go's `%T` on the stored lists, as used in accessor error messages. -/
def goTypeName : TypedList → String
  | .strs _ => "[]string"
  | .ints _ => "[]int64"
  | .floats _ => "[]float64"
  | .bools _ => "[]bool"

/-- Accessor `Handler.Strings`. -/
def Handler.Strings (h : Handler) (name : String) : Except String (List String) :=
  match optsGet h.opts name with
  | none => .error ("parameter " ++ goQuote name ++ " does not exist")
  | some (.strs v) => .ok v
  | some v => .error ("parameter " ++ goQuote name ++ " is " ++ goTypeName v ++ ", not string")

/-- Accessor `Handler.String` (named `StringVal` here; `Handler.String` would shadow
the `String` type inside its own declaration).  `ss[0]` on an empty slice
is an index-out-of-range panic, modelled in the outer `Except`. -/
def Handler.StringVal (h : Handler) (name : String) : Except GoPanic (Except String String) :=
  match h.Strings name with
  | .error e => .ok (.error e)
  | .ok [] => .error .sliceBounds
  | .ok (s :: _) => .ok (.ok s)

/-- Accessor `Handler.Integers`. -/
def Handler.Integers (h : Handler) (name : String) : Except String (List Int) :=
  match optsGet h.opts name with
  | none => .error ("parameter " ++ goQuote name ++ " does not exist")
  | some (.ints v) => .ok v
  | some v => .error ("parameter " ++ goQuote name ++ " is " ++ goTypeName v ++ ", not integer")

/-- Accessor `Handler.Integer`. -/
def Handler.Integer (h : Handler) (name : String) : Except GoPanic (Except String Int) :=
  match h.Integers name with
  | .error e => .ok (.error e)
  | .ok [] => .error .sliceBounds
  | .ok (i :: _) => .ok (.ok i)

/-- Accessor `Handler.Floats`. -/
def Handler.Floats (h : Handler) (name : String) : Except String (List Rat) :=
  match optsGet h.opts name with
  | none => .error ("parameter " ++ goQuote name ++ " does not exist")
  | some (.floats v) => .ok v
  | some v => .error ("parameter " ++ goQuote name ++ " is " ++ goTypeName v ++ ", not float")

/-- Accessor `Handler.Float` (named `FloatVal`, see `StringVal`). -/
def Handler.FloatVal (h : Handler) (name : String) : Except GoPanic (Except String Rat) :=
  match h.Floats name with
  | .error e => .ok (.error e)
  | .ok [] => .error .sliceBounds
  | .ok (f :: _) => .ok (.ok f)

/-- Accessor `Handler.Bools`. -/
def Handler.Bools (h : Handler) (name : String) : Except String (List Bool) :=
  match optsGet h.opts name with
  | none => .error ("parameter " ++ goQuote name ++ " does not exist")
  | some (.bools v) => .ok v
  | some v => .error ("parameter " ++ goQuote name ++ " is " ++ goTypeName v ++ ", not bool")

/-- Accessor `Handler.Bool` (named `BoolVal`, see `StringVal`). -/
def Handler.BoolVal (h : Handler) (name : String) : Except GoPanic (Except String Bool) :=
  match h.Bools name with
  | .error e => .ok (.error e)
  | .ok [] => .error .sliceBounds
  | .ok (b :: _) => .ok (.ok b)

/-- The payloads `ServeHTTP`'s write switch distinguishes: `[]byte`,
`string`, an `io.Reader` (modelled by the data draining it yields), and
anything else (which makes `ServeHTTP` panic). -/
inductive Payload where
  | bytes (s : String)
  | str (s : String)
  | reader (s : String)
  | other

/-- The dispatch function `Proc`: it receives the handler (by pointer in Go,
so it may mutate it — modelled by returning the possibly updated handler)
and produces a status code and a payload. -/
abbrev Proc := Handler → Handler × Int × Payload

/-- The response as written: status code, the response writer's final
header map, and the body bytes. -/
structure HttpResponse where
  status : Int
  headers : Values
  body : String

/-- http.Header.Get: first value of the key, or "". -/
def headerGet1 (m : Values) (k : String) : String :=
  match valuesGet m k with
  | [] => ""
  | s :: _ => s

/-- net/http's `http.Error`: Content-Type text/plain, the nosniff header,
the status code, and the message with a trailing newline. -/
def httpError (msg : String) (code : Int) : HttpResponse :=
  { status := code
  , headers := valuesSet (valuesSet [] "Content-Type" ["text/plain; charset=utf-8"])
      "X-Content-Type-Options" ["nosniff"]
  , body := msg ++ "\n" }

/-- The tail of `ServeHTTP` (handler.go lines 261-284), from the dispatch
function's return value onward: a missing Content-Type falls back to the
process-wide default `dm` (written through into the handler's persistent
header map), all handler headers are copied to the response writer, the
nosniff header is then set over whatever was copied, the status code is
written, and the payload is written — a payload of any other type is a
panic (`panic(err)` on the constructed error). -/
def serveDispatch (dm : String) : Handler × Int × Payload → Except GoPanic (Handler × HttpResponse)
  | (h2, code, data) =>
    let hdr2 :=
      if headerGet1 h2.hdr "Content-Type" = "" then
        valuesSet h2.hdr "Content-Type" [dm]
      else h2.hdr
    let wh := valuesSet hdr2 "X-Content-Type-Options" ["nosniff"]
    let h3 := { h2 with hdr := hdr2 }
    match data with
    | .bytes s => .ok (h3, { status := code, headers := wh, body := s })
    | .str s => .ok (h3, { status := code, headers := wh, body := s })
    | .reader s => .ok (h3, { status := code, headers := wh, body := s })
    | .other => .error (.errValue "data type must be []byte, string or io.Reader")

/-- Full `ServeHTTP`: the 501 short-circuit, then `parseArgs`, then the
unconditional dispatch call, then `serveDispatch`. -/
def serveHTTP (dm : String) (pr : Option Proc) (h : Handler) (r : Request) :
    Except GoPanic (Handler × HttpResponse) :=
  match pr with
  | none => .ok (h, httpError "Not Implemented" 501)
  | some f =>
    match parseArgs h r with
    | .error pan => .error pan
    | .ok h1 => serveDispatch dm (f h1)

/-- Whether a (lower-cased) type name is one the registration switch
accepts. -/
def validParamType (t : String) : Bool :=
  t = "string" || t = "int" || t = "float" || t = "bool"

/-- The registration switch body for one descriptor (handler.go lines
289-323): compile the declared default into its typed value, or fail.  An
empty default yields the type's zero value without invoking the parser;
an unrecognized type is the `invalid param type %q` error, quoting the
descriptor's *original* type spelling. -/
def compileDefault (t origType d : String) : Except String TypedVal :=
  match t with
  | "string" => .ok (.s d)
  | "int" =>
    if d = "" then .ok (.i 0)
    else
      match goAtoi d with
      | some i => .ok (.i i)
      | none => .error ("default value " ++ goQuote d ++ " is not a valid integer")
  | "float" =>
    if d = "" then .ok (.f 0)
    else
      match goParseFloat d with
      | some q => .ok (.f q)
      | none => .error ("default value " ++ goQuote d ++ " is not a valid float")
  | "bool" =>
    if d = "" then .ok (.b false)
    else
      match goParseBool d with
      | some b => .ok (.b b)
      | none => .error ("default value " ++ goQuote d ++ " is not a valid bool")
  | _ => .error ("invalid param type " ++ goQuote origType)

/-- The registration loop of `NewHandler`.  Go mutates the caller's slice in
place (`spec[i].Type = t; spec[i].defval = v`), so the result carries the
slice as left after the call: descriptors before the failing one (if any)
are normalized, the failing one and everything after it are untouched. -/
def compileSpec : List Param → List Param × Option String
  | [] => ([], none)
  | p :: rest =>
    match compileDefault (goToLower p.type) p.type p.Default with
    | .error e => (p :: rest, some e)
    | .ok v =>
      match compileSpec rest with
      | (rest', e) => ({ p with type := goToLower p.type, defval := some v } :: rest', e)

/-- Registration: `NewHandler` (handler.go lines 287-334): validate and normalize the
descriptor list in place; on success produce the binding with the
(mutated) spec, the route, a fresh empty header map, nil `opts` and zero
request state.  The second component is the caller's descriptor slice as
the call leaves it. -/
def NewHandler (route : String) (spec : List Param) : Except String Handler × List Param :=
  match compileSpec spec with
  | (spec', some e) => (.error e, spec')
  | (spec', none) =>
    (.ok { spec := spec', opts := none, args := [], req := none, err := none,
           Route := route, hdr := [] }, spec')

/-- The process-wide default content type as `init` sets it. -/
def defaultMIME0 : String := "text/plain; charset=utf-8"

/-- C1 input: the binding `NewHandler "/x"` produces for one declared
string parameter `a` (nil `opts`, as the source leaves it). -/
def c1Handler : Handler :=
  { spec := [{ Name := "a", type := "string", defval := some (.s "") }], Route := "/x" }

/-- C1 input: POST /x with cookie a=cookie and URL-encoded form body
a=body. -/
def c1Req1 : Request :=
  { method := "POST"
  , path := "/x"
  , cookies := [("a", "cookie")]
  , contentType := "application/x-www-form-urlencoded"
  , bodyForm := .ok [("a", ["body"])] }

/-- C1 input: the same request with query a=query added. -/
def c1Req2 : Request := { c1Req1 with rawQuery := "a=query" }

/-- C1 input: GET /x/a=path with no other source for a. -/
def c1Req3 : Request := { method := "GET", path := "/x/a=path" }

/-- C1 input: GET /x/a=path with cookie a=cookie also supplying a. -/
def c1Req4 : Request := { method := "GET", path := "/x/a=path", cookies := [("a", "cookie")] }

/-- C2 counterexample input: two required string parameters. -/
def c2Spec : List Param :=
  [{ Name := "a", type := "string", Required := true },
   { Name := "b", type := "string", Required := true }]

/-- C2 counterexample input: the binding compiled from `c2Spec`. -/
def c2Handler : Handler :=
  { spec := [{ Name := "a", type := "string", Required := true, defval := some (.s "") },
             { Name := "b", type := "string", Required := true, defval := some (.s "") }]
  , Route := "/" }

/-- C2 counterexample input: a GET / request supplying nothing. -/
def c2Req : Request := { method := "GET", path := "/" }

/-- C2 counterexample: the state `parseArgs` leaves (only `a`'s missing
error is recorded). -/
def c2Handler1 : Handler := { c2Handler with req := some c2Req, err := some "missing \"a\"" }

/-- C2 witness input: one required parameter, declared first. -/
def c2wHandler : Handler :=
  { spec := [{ Name := "a", type := "string", Required := true, defval := some (.s "") }]
  , Route := "/x" }

/-- C2 witness input: a GET /x request supplying nothing. -/
def c2wReq : Request := { method := "GET", path := "/x" }

/-- C2 witness input: a dispatch function answering 299. -/
def c2wProc : Proc := fun h => (h, 299, .str "ok")

/-- C3 witness input: a binding with no parameters. -/
def c3Handler : Handler := { spec := [], Route := "/" }

/-- C3 witness input. -/
def c3Req : Request := { method := "GET", path := "/" }

/-- C4 counterexample input: a fresh binding with no declared parameters. -/
def c4Handler0 : Handler := { spec := [], Route := "/" }

/-- C4 counterexample input, first request: POST /a/b whose JSON body fails
to decode. -/
def c4Req1 : Request :=
  { method := "POST"
  , path := "/a/b"
  , contentType := "application/json"
  , bodyJson := .error "bad json" }

/-- C4 counterexample input, second request: a plain GET / that resolves
without any error. -/
def c4Req2 : Request := { method := "GET", path := "/" }

/-- C4 counterexample: the state after the first request (error recorded,
path arguments stored). -/
def c4H1 : Handler :=
  { spec := [], Route := "/", args := ["a", "b"], req := some c4Req1, err := some "bad json" }

/-- C4 counterexample: the state after the second request — the first
request's error and path arguments are still there. -/
def c4H2 : Handler := { c4H1 with req := some c4Req2, opts := none }

/-- C4 witness input: a binding carrying an error from an earlier request. -/
def c4wHandler : Handler := { spec := [], Route := "/", err := some "boom" }

/-- C4 witness input. -/
def c4wReq : Request := { method := "GET", path := "/" }

/-- C5 input: the binding for one declared bool parameter `flag`. -/
def c5Handler : Handler :=
  { spec := [{ Name := "flag", type := "bool", defval := some (.b false) }], Route := "/x" }

/-- C5 input: GET /x?flag= (empty value for the bool parameter). -/
def c5Req : Request := { method := "GET", path := "/x", rawQuery := "flag=" }

/-- C6 counterexample input: an earlier descriptor with a bad default
followed by a descriptor with the invalid type "file". -/
def c6Spec : List Param :=
  [{ Name := "a", type := "int", Default := "zz" },
   { Name := "b", type := "file" }]

/-- C6 witness input: a descriptor with the invalid type "file". -/
def c6wParam : Param := { Name := "b", type := "file" }

/-- C7 input: POST /x with Content-Type application/json and body
decoding to the flat object with field "a" holding the string list
["x", "y"]. -/
def c7Req : Request :=
  { method := "POST"
  , path := "/x"
  , contentType := "application/json"
  , bodyJson := .ok (.cons "a" (.arr (.cons (.str "x") (.cons (.str "y") .nil))) .nil) }

/-- C8 input: a descriptor whose type is spelled upper-case, so that the
in-place normalization is observable. -/
def c8Param : Param := { Name := "a", type := "STRING" }

/-- C9 witness input. -/
def c9Param : Param := { Name := "a", type := "STRING" }

/-- C10 input: the binding for one optional string parameter with a
declared default. -/
def c10Handler : Handler :=
  { spec := [{ Name := "a", type := "string", Default := "d", defval := some (.s "d") }]
  , Route := "/x" }

/-- C10 input: a GET /x request supplying nothing, so the typed default
would be stored. -/
def c10Req : Request := { method := "GET", path := "/x" }

/-- How registration rewrites one descriptor in place: all caller-supplied
fields survive, the type string is lower-cased, and the compiled typed
default is stored. -/
def normRel (p q : Param) : Prop :=
  q.Name = p.Name ∧ q.Default = p.Default ∧ q.Required = p.Required ∧ q.Memo = p.Memo ∧
  q.type = goToLower p.type ∧
  ∃ v, compileDefault (goToLower p.type) p.type p.Default = .ok v ∧ q.defval = some v

/-- C8 witness: the normalized form of `c8Param`. -/
def c8NormSpec : List Param :=
  [{ Name := "a", type := "string", Default := "", Required := false, Memo := "",
     defval := some (.s "") }]

/-- C8 witness: the binding `NewHandler "/x" [c8Param]` produces. -/
def c8WHandler : Handler := { spec := c8NormSpec, Route := "/x" }

theorem valuesGet_valuesSet_self (m : Values) (k : String) (v : List String) :
    valuesGet (valuesSet m k v) k = v := by
  induction m with
  | nil => simp [valuesSet, valuesGet]
  | cons kv rest ih =>
    obtain ⟨k', v'⟩ := kv
    by_cases h : k' = k <;> simp [valuesSet, valuesGet, h, ih]

/-- C1: on the claimed scenarios, the source-gathering function `args`
merges the sources exactly as the claim has it — the form body beats the
cookie, the query beats the body, a path-embedded pair is used when no
other source has the name and is ignored when one does — but the
resolution step then panics assigning the first resolved value, because
`NewHandler` never allocates the `opts` map. -/
theorem hapi_C1_precedence_then_panic :
    (NewHandler "/x" [{ Name := "a", type := "string" }]).1 = .ok c1Handler ∧
    args c1Req1 = .ok (.ok [("a", ["body"]), ("x", [""])]) ∧
    args c1Req2 = .ok (.ok [("a", ["query"]), ("x", [""])]) ∧
    args c1Req3 = .ok (.ok [("a", ["path"])]) ∧
    args c1Req4 = .ok (.ok [("a", ["cookie"])]) ∧
    parseArgs c1Handler c1Req1 = .error .nilMapWrite :=
  ⟨rfl, rfl, rfl, rfl, rfl, rfl⟩

/-- C5: coercion of the empty-string value for a declared bool parameter
yields `true` without consulting `strconv.ParseBool` (which rejects the
empty string), exactly as claimed — but resolution then panics storing the
result, because the `opts` map is nil. -/
theorem hapi_C5_bool_empty_then_panic :
    (NewHandler "/x" [{ Name := "flag", type := "bool" }]).1 = .ok c5Handler ∧
    args c5Req = .ok (.ok [("flag", [""]), ("x", [""])]) ∧
    goParseBool "" = none ∧
    coerceBools "flag" [""] = .ok [true] ∧
    parseArgs c5Handler c5Req = .error .nilMapWrite :=
  ⟨rfl, rfl, rfl, rfl, rfl⟩

/-- C7: a JSON body field holding the list ["x", "y"] is stored as the
single stringified value "[x y]", not as a multi-valued entry, because
`encoding/json` decoding into `map[string]interface\x7b\x7d` produces
`[]interface\x7b\x7d` for arrays and never `[]string` (last conjunct), so
the `case []string` branch of the type switch is unreachable. -/
theorem hapi_C7_json_array_stringified :
    args c7Req = .ok (.ok [("a", ["[x y]"]), ("x", [""])]) ∧
    valuesGet [("a", ["[x y]"]), ("x", [""])] "a" = ["[x y]"] ∧
    ((["[x y]"] : List String) == ["x", "y"]) = false ∧
    ∀ j : JVal, isStrList (decodeVal j) = false := by
  refine ⟨rfl, rfl, by decide, ?_⟩
  intro j
  cases j <;> rfl

/-- C10: an absent optional string parameter would be stored as its typed
default wrapped in a one-element list (second conjunct, the value the
switch computes), but the store itself panics on the nil `opts` map, so
nothing is ever stored and the accessors never succeed on this binding. -/
theorem hapi_C10_default_store_panics :
    (NewHandler "/x" [{ Name := "a", type := "string", Default := "d" }]).1 = .ok c10Handler ∧
    coerceOne { Name := "a", type := "string", Default := "d", defval := some (.s "d") } [] =
      .ok (.ok (some (.strs ["d"]))) ∧
    parseArgs c10Handler c10Req = .error .nilMapWrite ∧
    c10Handler.Strings "a" = .error "parameter \"a\" does not exist" ∧
    c10Handler.StringVal "a" = .ok (.error "parameter \"a\" does not exist") :=
  ⟨rfl, rfl, rfl, rfl, rfl⟩

/-- C3: every response `ServeHTTP` completes — the 501 not-implemented
response included — carries the header X-Content-Type-Options: nosniff. -/
theorem hapi_C3_nosniff (dm : String) (pr : Option Proc) (h : Handler) (r : Request)
    (out : Handler × HttpResponse) (hs : serveHTTP dm pr h r = .ok out) :
    valuesGet out.2.headers "X-Content-Type-Options" = ["nosniff"] := by
  cases pr with
  | none =>
    simp only [serveHTTP, Except.ok.injEq] at hs
    rw [← hs]
    rfl
  | some f =>
    unfold serveHTTP at hs
    cases hp : parseArgs h r with
    | error p => rw [hp] at hs; simp at hs
    | ok h1 =>
      rw [hp] at hs
      dsimp only at hs
      rcases hf : f h1 with ⟨h2, code, data⟩
      rw [hf] at hs
      cases data with
      | other => simp [serveDispatch] at hs
      | bytes s =>
        simp only [serveDispatch, Except.ok.injEq] at hs
        rw [← hs]
        exact valuesGet_valuesSet_self _ _ _
      | str s =>
        simp only [serveDispatch, Except.ok.injEq] at hs
        rw [← hs]
        exact valuesGet_valuesSet_self _ _ _
      | reader s =>
        simp only [serveDispatch, Except.ok.injEq] at hs
        rw [← hs]
        exact valuesGet_valuesSet_self _ _ _

/-- C3 witness: the not-implemented response of a binding with no dispatch
function carries the nosniff header. -/
theorem hapi_C3_witness :
    valuesGet (httpError "Not Implemented" 501).headers "X-Content-Type-Options" = ["nosniff"] :=
  hapi_C3_nosniff defaultMIME0 none c3Handler c3Req (c3Handler, httpError "Not Implemented" 501) rfl

theorem serveHTTP_some_eq_bind (dm : String) (f : Proc) (h : Handler) (r : Request) :
    serveHTTP dm (some f) h r = (parseArgs h r).bind (fun h' => serveDispatch dm (f h')) := by
  unfold serveHTTP
  cases hp : parseArgs h r <;> simp [Except.bind]

/-- C2 counterexample: with two required parameters a and b both absent
from every source, resolution records only `missing "a"`; b is required and
absent, yet the recorded error is not a missing-parameter error naming b. -/
theorem hapi_C2_cex :
    (NewHandler "/" c2Spec).1 = .ok c2Handler ∧
    parseArgs c2Handler c2Req = .ok c2Handler1 ∧
    args c2Req = .ok (.ok []) ∧
    c2Handler.spec.any (fun p => p.Name == "b" && p.Required) = true ∧
    valuesGet [] "b" = [] ∧
    c2Handler1.err = some "missing \"a\"" ∧
    (("missing \"a\"" : String) == "missing " ++ goQuote "b") = false :=
  ⟨rfl, rfl, rfl, rfl, rfl, rfl, by decide⟩

/-- C2 as amended: when the *first* declared parameter is required and
absent from every gathered source, resolution records the missing-parameter
error naming it, and `ServeHTTP` still hands the resolved state to the
dispatch function (its response is exactly `serveDispatch` of the dispatch
function's output on that state). -/
theorem hapi_C2_amended (dm : String) (f : Proc) (h : Handler) (p : Param) (rest : List Param)
    (r : Request) (vs : Values)
    (hspec : h.spec = p :: rest) (hreq : p.Required = true)
    (hlen : h.Route.length ≤ r.path.length)
    (ha : args r = .ok (.ok vs)) (habs : valuesGet vs p.Name = []) :
    (parseArgs h r).map (fun h' => h'.err) = .ok (some ("missing " ++ goQuote p.Name)) ∧
    serveHTTP dm (some f) h r = (parseArgs h r).bind (fun h' => serveDispatch dm (f h')) := by
  have hco : ∀ o, coerceParams h.spec vs o = .ok (o, some ("missing " ++ goQuote p.Name)) := by
    intro o
    rw [hspec]
    simp [coerceParams, habs, hreq]
  have hnl : ¬ r.path.length < h.Route.length := Nat.not_lt.mpr hlen
  refine ⟨?_, serveHTTP_some_eq_bind dm f h r⟩
  unfold parseArgs
  by_cases hsfx : goDrop r.path h.Route.length = "" <;>
    simp [hnl, ha, hsfx, hco, Except.map]

/-- C2 witness: the amended statement at the concrete one-required-parameter
binding and an empty GET request. -/
theorem hapi_C2_witness :
    (parseArgs c2wHandler c2wReq).map (fun h' => h'.err) = .ok (some ("missing " ++ goQuote "a")) ∧
    serveHTTP defaultMIME0 (some c2wProc) c2wHandler c2wReq =
      (parseArgs c2wHandler c2wReq).bind (fun h' => serveDispatch defaultMIME0 (c2wProc h')) :=
  hapi_C2_amended defaultMIME0 c2wProc c2wHandler
    { Name := "a", type := "string", Required := true, defval := some (.s "") } [] c2wReq
    [("x", [""])] rfl rfl (by decide) rfl rfl

/-- C4 counterexample: after a first request whose body fails to decode on
a binding with no declared parameters, a second request that resolves with
no error of its own still observes the first request's resolution error and
path arguments — the per-request fields are not constructed fresh. -/
theorem hapi_C4_cex :
    parseArgs c4Handler0 c4Req1 = .ok c4H1 ∧
    parseArgs c4H1 c4Req2 = .ok c4H2 ∧
    args c4Req2 = .ok (.ok []) ∧
    coerceParams c4H2.spec [] c4H1.opts = .ok (none, none) ∧
    c4H2.err = some "bad json" ∧
    (c4H2.err == (none : Option String)) = false ∧
    c4H2.args = ["a", "b"] ∧
    (c4H2.args == ([] : List String)) = false :=
  ⟨rfl, rfl, rfl, rfl, rfl, by decide, rfl, by decide⟩

/-- C4 as amended: per-request state is stored on the shared binding and
overwritten rather than reset — whenever a request's resolution encounters
no error, the binding's previous resolution error is left in place, and
when the request's path suffix is empty the previous path arguments are
left in place too. -/
theorem hapi_C4_amended (h : Handler) (r : Request) (vs : Values) (o : Option Opts)
    (hlen : h.Route.length ≤ r.path.length)
    (ha : args r = .ok (.ok vs))
    (hc : coerceParams h.spec vs h.opts = .ok (o, none)) :
    (parseArgs h r).map (fun h' => h'.err) = .ok h.err ∧
    (goDrop r.path h.Route.length = "" →
      (parseArgs h r).map (fun h' => h'.args) = .ok h.args) := by
  have hnl : ¬ r.path.length < h.Route.length := Nat.not_lt.mpr hlen
  constructor
  · unfold parseArgs
    by_cases hsfx : goDrop r.path h.Route.length = "" <;>
      simp [hnl, ha, hsfx, hc, Except.map]
  · intro hsfx
    unfold parseArgs
    simp [hnl, ha, hsfx, hc, Except.map]

/-- C4 witness: the amended statement at a binding carrying an earlier
error, served a request that resolves with no error. -/
theorem hapi_C4_witness :
    (parseArgs c4wHandler c4wReq).map (fun h' => h'.err) = .ok (some "boom") ∧
    (parseArgs c4wHandler c4wReq).map (fun h' => h'.args) = .ok ([] : List String) :=
  ⟨(hapi_C4_amended c4wHandler c4wReq [] none (by decide) rfl rfl).1,
   (hapi_C4_amended c4wHandler c4wReq [] none (by decide) rfl rfl).2 rfl⟩

theorem compileDefault_ok_valid {t ot d : String} {v : TypedVal}
    (h : compileDefault t ot d = .ok v) : validParamType t = true := by
  unfold compileDefault at h
  split at h <;> simp_all [validParamType]

theorem compileDefault_invalid {t : String} (ot d : String)
    (h : validParamType t = false) :
    compileDefault t ot d = .error ("invalid param type " ++ goQuote ot) := by
  unfold compileDefault
  split <;> simp_all [validParamType]

theorem compileDefault_ok_stable {t ot d : String} {v : TypedVal}
    (h : compileDefault t ot d = .ok v) (ot' : String) :
    goToLower t = t ∧ compileDefault t ot' d = .ok v := by
  unfold compileDefault at h ⊢
  split at h
  · exact ⟨rfl, h⟩
  · exact ⟨rfl, h⟩
  · exact ⟨rfl, h⟩
  · exact ⟨rfl, h⟩
  · cases h

theorem NewHandler_fst_error {route : String} {l : List Param} {e : String}
    (h2 : (compileSpec l).2 = some e) : (NewHandler route l).1 = .error e := by
  unfold NewHandler
  cases hcs : compileSpec l with
  | mk s eo =>
    rw [hcs] at h2
    simp at h2
    subst h2
    simp

theorem compileSpec_snd_invalid (pre : List Param) (p : Param) (rest : List Param)
    (hpre : (compileSpec pre).2 = none)
    (hv : validParamType (goToLower p.type) = false) :
    (compileSpec (pre ++ p :: rest)).2 = some ("invalid param type " ++ goQuote p.type) := by
  induction pre with
  | nil =>
    simp only [List.nil_append, compileSpec]
    rw [compileDefault_invalid p.type p.Default hv]
  | cons q pre ih =>
    simp only [compileSpec] at hpre
    simp only [List.cons_append, compileSpec]
    cases hd : compileDefault (goToLower q.type) q.type q.Default with
    | error e => rw [hd] at hpre; simp at hpre
    | ok v =>
      rw [hd] at hpre
      cases hcs : compileSpec pre with
      | mk pre' eo =>
        rw [hcs] at hpre
        simp at hpre
        have := ih (by rw [hcs]; exact hpre)
        cases hcs2 : compileSpec (pre ++ p :: rest) with
        | mk l' eo' =>
          rw [hcs2] at this
          simpa using this

theorem compileSpec_snd_of_invalid (l : List Param)
    (hbad : ∃ p ∈ l, validParamType (goToLower p.type) = false) :
    ∃ e, (compileSpec l).2 = some e := by
  induction l with
  | nil => obtain ⟨p, hp, _⟩ := hbad; cases hp
  | cons q rest ih =>
    obtain ⟨p, hp, hv⟩ := hbad
    simp only [compileSpec]
    cases hd : compileDefault (goToLower q.type) q.type q.Default with
    | error e => exact ⟨e, rfl⟩
    | ok v =>
      rcases List.mem_cons.mp hp with hpq | hpr
      · subst hpq
        exact absurd (compileDefault_ok_valid hd) (by simp [hv])
      · obtain ⟨e, he⟩ := ih ⟨p, hpr, hv⟩
        refine ⟨e, ?_⟩
        cases hcs : compileSpec rest with
        | mk rest' eo =>
          rw [hcs] at he
          simpa using he

/-- C6 as amended: a descriptor whose lower-cased type is not one of
string/int/float/bool (the "file" type included) always makes registration
fail with no binding; the reported error is the "invalid param type" error
for that descriptor provided every earlier descriptor compiles — an
earlier descriptor's failure is reported instead. -/
theorem hapi_C6_amended :
    (∀ (route : String) (spec : List Param),
        (∃ p ∈ spec, validParamType (goToLower p.type) = false) →
        ∃ e, (NewHandler route spec).1 = .error e) ∧
    (∀ (route : String) (pre : List Param) (p : Param) (rest : List Param),
        (compileSpec pre).2 = none → validParamType (goToLower p.type) = false →
        (NewHandler route (pre ++ p :: rest)).1 =
          .error ("invalid param type " ++ goQuote p.type)) := by
  constructor
  · intro route spec hbad
    obtain ⟨e, he⟩ := compileSpec_snd_of_invalid spec hbad
    exact ⟨e, NewHandler_fst_error he⟩
  · intro route pre p rest hpre hv
    exact NewHandler_fst_error (compileSpec_snd_invalid pre p rest hpre hv)

/-- C6 counterexample: with a first descriptor carrying an unparsable
default and a second carrying the invalid type "file", registration fails
with the bad-default error, not with the invalid-parameter-type error,
although a descriptor with an invalid type is present. -/
theorem hapi_C6_cex :
    (NewHandler "/x" c6Spec).1 = .error "default value \"zz\" is not a valid integer" ∧
    c6Spec.any (fun p => !(validParamType (goToLower p.type))) = true ∧
    (("default value \"zz\" is not a valid integer" : String) ==
      "invalid param type " ++ goQuote "file") = false :=
  ⟨rfl, rfl, by decide⟩

/-- C6 witness: the amended statement at a one-descriptor list with type
"file". -/
theorem hapi_C6_witness :
    (NewHandler "/x" ([] ++ c6wParam :: [])).1 =
      .error ("invalid param type " ++ goQuote c6wParam.type) :=
  hapi_C6_amended.2 "/x" [] c6wParam [] rfl rfl

theorem compileSpec_ok_norm : ∀ (l l' : List Param), compileSpec l = (l', none) →
    List.Forall₂ normRel l l' := by
  intro l
  induction l with
  | nil =>
    intro l' hc
    simp only [compileSpec] at hc
    injection hc with h1 _
    subst h1
    exact List.Forall₂.nil
  | cons p rest ih =>
    intro l' hc
    simp only [compileSpec] at hc
    cases hd : compileDefault (goToLower p.type) p.type p.Default with
    | error e => rw [hd] at hc; injection hc with _ h2; cases h2
    | ok v =>
      rw [hd] at hc
      cases hcs : compileSpec rest with
      | mk rest' eo =>
        rw [hcs] at hc
        injection hc with h1 h2
        subst h1
        subst h2
        refine List.Forall₂.cons ⟨rfl, rfl, rfl, rfl, rfl, v, hd, rfl⟩ (ih rest' ?_)
        rw [hcs]

/-- C8 as amended: registration's only side effect is the in-place
normalization of the caller's descriptor list — each descriptor keeps its
name, default literal, required flag and memo, its type string is
lower-cased, and its compiled typed default is stored — and on success the
returned binding carries the normalized spec, the route, an empty header
map, nil opts and zero request state; nothing else (in particular no
global beyond the separately-held default content type, which registration
never touches) is mutated. -/
theorem hapi_C8_amended (route : String) (spec spec' : List Param) (h : Handler)
    (hc : NewHandler route spec = (.ok h, spec')) :
    List.Forall₂ normRel spec spec' ∧
    h.spec = spec' ∧ h.Route = route ∧ h.hdr = [] ∧ h.opts = none ∧
    h.args = [] ∧ h.req = none ∧ h.err = none := by
  unfold NewHandler at hc
  cases hcs : compileSpec spec with
  | mk s eo =>
    rw [hcs] at hc
    cases eo with
    | some e => simp at hc
    | none =>
      injection hc with h1 h2
      injection h1 with h1
      subst h2
      subst h1
      exact ⟨compileSpec_ok_norm spec s (by rw [hcs]), rfl, rfl, rfl, rfl, rfl, rfl, rfl⟩

/-- C8 counterexample: registration writes through the caller's descriptor
list — after `NewHandler "/x" [c8Param]` the list holds the lower-cased
type "string" and a compiled default, and is no longer equal to the list
the caller supplied. -/
theorem hapi_C8_cex :
    (NewHandler "/x" [c8Param]).2 = c8NormSpec ∧
    ((NewHandler "/x" [c8Param]).2 == [c8Param]) = false :=
  ⟨rfl, by decide⟩

/-- C8 witness: the amended statement at the one-descriptor list with the
upper-case type spelling. -/
theorem hapi_C8_witness :
    List.Forall₂ normRel [c8Param] c8NormSpec ∧
    c8WHandler.spec = c8NormSpec ∧ c8WHandler.Route = "/x" ∧ c8WHandler.hdr = [] ∧
    c8WHandler.opts = none ∧ c8WHandler.args = [] ∧ c8WHandler.req = none ∧
    c8WHandler.err = none :=
  hapi_C8_amended "/x" [c8Param] c8NormSpec c8WHandler rfl

theorem compileSpec_idem : ∀ (l l' : List Param), compileSpec l = (l', none) →
    compileSpec l' = (l', none) := by
  intro l
  induction l with
  | nil =>
    intro l' hc
    simp only [compileSpec] at hc
    injection hc with h1 _
    subst h1
    rfl
  | cons p rest ih =>
    intro l' hc
    simp only [compileSpec] at hc
    cases hd : compileDefault (goToLower p.type) p.type p.Default with
    | error e => rw [hd] at hc; injection hc with _ h2; cases h2
    | ok v =>
      rw [hd] at hc
      cases hcs : compileSpec rest with
      | mk rest' eo =>
        rw [hcs] at hc
        injection hc with h1 h2
        subst h1
        subst h2
        have hrest := ih rest' (by rw [hcs])
        obtain ⟨hlow, hstable⟩ := compileDefault_ok_stable hd (goToLower p.type)
        simp only [compileSpec]
        rw [hlow, hstable, hrest]

/-- C9: registration is idempotent — recompiling the descriptor list a
successful registration leaves behind (the same slice a second Go call
would receive) succeeds and yields the identical binding: same normalized
types, same compiled typed defaults, same route, empty headers. -/
theorem hapi_C9_idempotent (route : String) (spec spec' : List Param) (h : Handler)
    (hc : NewHandler route spec = (.ok h, spec')) :
    NewHandler route spec' = (.ok h, spec') := by
  unfold NewHandler at hc ⊢
  cases hcs : compileSpec spec with
  | mk s eo =>
    rw [hcs] at hc
    cases eo with
    | some e => simp at hc
    | none =>
      injection hc with h1 h2
      injection h1 with h1
      subst h2
      subst h1
      rw [compileSpec_idem spec s (by rw [hcs])]

/-- C9 witness: recompiling the normalized form of a one-parameter spec
reproduces the same binding and the same slice. -/
theorem hapi_C9_witness :
    NewHandler "/x" [{ Name := "a", type := "string", Default := "", Required := false,
                       Memo := "", defval := some (TypedVal.s "") }] =
      (.ok { spec := [{ Name := "a", type := "string", Default := "", Required := false,
                        Memo := "", defval := some (TypedVal.s "") }],
             opts := none, args := [], req := none, err := none, Route := "/x", hdr := [] },
       [{ Name := "a", type := "string", Default := "", Required := false, Memo := "",
          defval := some (TypedVal.s "") }]) :=
  hapi_C9_idempotent "/x" [c9Param] _ _ rfl
